import Mathlib

/-!
Verification of the core of the `rust-color` library: channel types,
the 3x3 linear-algebra support, derivation of the RGB-to-XYZ transform
from primaries and a white point, and the encoding (transfer-function)
layer.

Embedding conventions:
* Rust floating-point scalars are embedded as exact rationals (`ℚ`);
  the transform-derivation algorithm is pure field arithmetic, so exact
  identities imply every stated floating-point tolerance.  The gamma
  transfer curves use real-number powers and are embedded over `ℝ`.
* A Rust panic (`unwrap` / `expect`) is embedded as `Except.error` of a
  `RustFailure` value carrying the panic message; `Except.ok` is normal
  return.  The Rust signature `fn new(..) -> Self` has no `Result`, so
  every failure of `LinearColorSpace::new` is a panic.
-/

/-- Outcome marker for a Rust panic (`unwrap`/`expect`): the message the
panicking call would print. -/
inductive RustFailure where
  | fatal (msg : String) : RustFailure
deriving DecidableEq, Repr

/-- Modelled from the spec: an RGB primary is a chromaticity coordinate
pair (x, y) (source file `color_space/primary.rs` is not under `src/`). -/
structure RgbPrimary where
  x : ℚ
  y : ℚ
deriving DecidableEq, Repr

/-- RgbPrimary::new. -/
def RgbPrimary.new (x y : ℚ) : RgbPrimary := ⟨x, y⟩

/-- RgbPrimary::to_tuple: the (x, y) pair. -/
def RgbPrimary.to_tuple (p : RgbPrimary) : ℚ × ℚ := (p.x, p.y)

/-- Modelled from the spec: the XYZ tristimulus color model (source file
`xyz.rs` is not under `src/`): an ordered triple of free channels. -/
structure Xyz where
  x : ℚ
  y : ℚ
  z : ℚ
deriving DecidableEq, Repr

/-- Xyz::from_channels. -/
def Xyz.from_channels (x y z : ℚ) : Xyz := ⟨x, y, z⟩

/-- Xyz::to_tuple (the `Color` trait implementation). -/
def Xyz.to_tuple (c : Xyz) : ℚ × ℚ × ℚ := (c.x, c.y, c.z)

/-- Xyz::from_tuple (the `FromTuple` trait implementation). -/
def Xyz.from_tuple (t : ℚ × ℚ × ℚ) : Xyz := ⟨t.1, t.2.1, t.2.2⟩

/-- Modelled from the spec: the RGB color model (source file `rgb.rs` is
not under `src/`): an ordered triple of bounded channels. -/
structure Rgb where
  red : ℚ
  green : ℚ
  blue : ℚ
deriving DecidableEq, Repr

/-- Rgb::from_channels. -/
def Rgb.from_channels (r g b : ℚ) : Rgb := ⟨r, g, b⟩

/-- Rgb::to_tuple (the `Color` trait implementation). -/
def Rgb.to_tuple (c : Rgb) : ℚ × ℚ × ℚ := (c.red, c.green, c.blue)

/-- Rgb::from_tuple (the `FromTuple` trait implementation). -/
def Rgb.from_tuple (t : ℚ × ℚ × ℚ) : Rgb := ⟨t.1, t.2.1, t.2.2⟩

/-- Modelled from the spec: the 3x3 matrix of `linalg.rs` (not under
`src/`), constructed from 9 scalars in row-major order. -/
structure Matrix3 where
  m00 : ℚ
  m01 : ℚ
  m02 : ℚ
  m10 : ℚ
  m11 : ℚ
  m12 : ℚ
  m20 : ℚ
  m21 : ℚ
  m22 : ℚ
deriving DecidableEq, Repr

/-- Matrix3::new from 9 scalars in row-major order. -/
def Matrix3.new (a b c d e f g h i : ℚ) : Matrix3 := ⟨a, b, c, d, e, f, g, h, i⟩

/-- Modelled from the spec: matrix-vector transform (`transform_vector`). -/
def Matrix3.transform_vector (m : Matrix3) (v : ℚ × ℚ × ℚ) : ℚ × ℚ × ℚ :=
  (m.m00 * v.1 + m.m01 * v.2.1 + m.m02 * v.2.2,
   m.m10 * v.1 + m.m11 * v.2.1 + m.m12 * v.2.2,
   m.m20 * v.1 + m.m21 * v.2.1 + m.m22 * v.2.2)

/-- Modelled from the spec: matrix-matrix multiplication. -/
def Matrix3.mul (a b : Matrix3) : Matrix3 :=
  ⟨a.m00 * b.m00 + a.m01 * b.m10 + a.m02 * b.m20,
   a.m00 * b.m01 + a.m01 * b.m11 + a.m02 * b.m21,
   a.m00 * b.m02 + a.m01 * b.m12 + a.m02 * b.m22,
   a.m10 * b.m00 + a.m11 * b.m10 + a.m12 * b.m20,
   a.m10 * b.m01 + a.m11 * b.m11 + a.m12 * b.m21,
   a.m10 * b.m02 + a.m11 * b.m12 + a.m12 * b.m22,
   a.m20 * b.m00 + a.m21 * b.m10 + a.m22 * b.m20,
   a.m20 * b.m01 + a.m21 * b.m11 + a.m22 * b.m21,
   a.m20 * b.m02 + a.m21 * b.m12 + a.m22 * b.m22⟩

/-- Modelled from the spec: the determinant of a 3x3 matrix. -/
def Matrix3.det (m : Matrix3) : ℚ :=
  m.m00 * (m.m11 * m.m22 - m.m12 * m.m21)
    - m.m01 * (m.m10 * m.m22 - m.m12 * m.m20)
    + m.m02 * (m.m10 * m.m21 - m.m11 * m.m20)

/-- The 3x3 identity matrix. -/
def Matrix3.identity : Matrix3 := ⟨1, 0, 0, 0, 1, 0, 0, 0, 1⟩

/-- Modelled from the spec: `inverse` signals failure (`None`) when the
determinant vanishes (exact-arithmetic counterpart of the within-epsilon
test), otherwise returns the adjugate divided by the determinant. -/
def Matrix3.inverse (m : Matrix3) : Option Matrix3 :=
  if m.det = 0 then none
  else some
    ⟨(m.m11 * m.m22 - m.m12 * m.m21) / m.det,
     (m.m02 * m.m21 - m.m01 * m.m22) / m.det,
     (m.m01 * m.m12 - m.m02 * m.m11) / m.det,
     (m.m12 * m.m20 - m.m10 * m.m22) / m.det,
     (m.m00 * m.m22 - m.m02 * m.m20) / m.det,
     (m.m02 * m.m10 - m.m00 * m.m12) / m.det,
     (m.m10 * m.m21 - m.m11 * m.m20) / m.det,
     (m.m01 * m.m20 - m.m00 * m.m21) / m.det,
     (m.m00 * m.m11 - m.m01 * m.m10) / m.det⟩

/-- Entrywise approximate equality of matrices within a tolerance. -/
def Matrix3.approxEq (a b : Matrix3) (eps : ℚ) : Prop :=
  |a.m00 - b.m00| ≤ eps ∧ |a.m01 - b.m01| ≤ eps ∧ |a.m02 - b.m02| ≤ eps ∧
  |a.m10 - b.m10| ≤ eps ∧ |a.m11 - b.m11| ≤ eps ∧ |a.m12 - b.m12| ≤ eps ∧
  |a.m20 - b.m20| ≤ eps ∧ |a.m21 - b.m21| ≤ eps ∧ |a.m22 - b.m22| ≤ eps

instance (a b : Matrix3) (eps : ℚ) : Decidable (Matrix3.approxEq a b eps) := by
  unfold Matrix3.approxEq
  infer_instance

/-- Componentwise approximate equality of channel triples. -/
def tupleApproxEq (a b : ℚ × ℚ × ℚ) (eps : ℚ) : Prop :=
  |a.1 - b.1| ≤ eps ∧ |a.2.1 - b.2.1| ≤ eps ∧ |a.2.2 - b.2.2| ≤ eps

instance (a b : ℚ × ℚ × ℚ) (eps : ℚ) : Decidable (tupleApproxEq a b eps) := by
  unfold tupleApproxEq
  infer_instance

/-- LinearColorSpace: three primaries, a white point and the derived
forward (RGB to XYZ) and inverse transform matrices
(`color_space/color_space.rs` lines 37-45). -/
structure LinearColorSpace where
  red_primary : RgbPrimary
  green_primary : RgbPrimary
  blue_primary : RgbPrimary
  white_point : Xyz
  xyz_transform : Matrix3
  inv_transform : Matrix3
deriving DecidableEq, Repr

/-- LinearColorSpace::calc_transform_vector
(`color_space/color_space.rs` lines 114-124): the unnormalized
tristimulus direction of a chromaticity pair. -/
def LinearColorSpace.calc_transform_vector (primary_vec : ℚ × ℚ) : ℚ × ℚ × ℚ :=
  let one : ℚ := 1
  let ix := primary_vec.1
  let iy := primary_vec.2
  (ix / iy, one, (one - ix - iy) / iy)

/-- LinearColorSpace::build_transform
(`color_space/color_space.rs` lines 96-112).  The source `unwrap`s the
inversion of the primary matrix; the panic is the `Except.error` case. -/
def LinearColorSpace.build_transform (red_primary green_primary blue_primary : RgbPrimary)
    (white_point : Xyz) : Except RustFailure Matrix3 :=
  let (rx, ry, rz) := LinearColorSpace.calc_transform_vector red_primary.to_tuple
  let (gx, gy, gz) := LinearColorSpace.calc_transform_vector green_primary.to_tuple
  let (bx, bby, bz) := LinearColorSpace.calc_transform_vector blue_primary.to_tuple
  let primary_transform := Matrix3.new rx gx bx ry gy bby rz gz bz
  match primary_transform.inverse with
  | none => Except.error (RustFailure.fatal "called Option::unwrap() on a None value")
  | some inv_transform =>
    let (sr, sg, sb) := inv_transform.transform_vector white_point.to_tuple
    Except.ok (Matrix3.new (sr * rx) (sg * gx) (sb * bx) (sr * ry) (sg * gy) (sb * bby)
      (sr * rz) (sg * gz) (sb * bz))

/-- LinearColorSpace::new (`color_space/color_space.rs` lines 55-77).
The source return type is `Self`; the singular-matrix case goes through
`expect`, i.e. a panic, modelled as `Except.error`. -/
def LinearColorSpace.new (red green blue : RgbPrimary) (white_point : Xyz) :
    Except RustFailure LinearColorSpace :=
  match LinearColorSpace.build_transform red green blue white_point with
  | Except.error e => Except.error e
  | Except.ok forward_transform =>
    match forward_transform.inverse with
    | none => Except.error (RustFailure.fatal
        "Singular transformation matrix, make sure red, green and blue are linearly independent")
    | some inv_transform =>
      Except.ok ⟨red, green, blue, white_point, forward_transform, inv_transform⟩

/-- ColorSpace::get_xyz_transform for LinearColorSpace
(`color_space/color_space.rs` lines 190-192). -/
def LinearColorSpace.get_xyz_transform (s : LinearColorSpace) : Matrix3 :=
  s.xyz_transform

/-- ColorSpace::get_inverse_xyz_transform for LinearColorSpace
(`color_space/color_space.rs` lines 193-195). -/
def LinearColorSpace.get_inverse_xyz_transform (s : LinearColorSpace) : Matrix3 :=
  s.inv_transform

/-- ColorSpace::apply_transform for LinearColorSpace
(`color_space/color_space.rs` lines 196-198). -/
def LinearColorSpace.apply_transform (s : LinearColorSpace) (vec : ℚ × ℚ × ℚ) : ℚ × ℚ × ℚ :=
  s.get_xyz_transform.transform_vector vec

/-- Specification-side definition (spec 4.4 step 1): the direction
vector of a primary, written exactly as the spec words it. -/
def spec_direction_vector (p : RgbPrimary) : ℚ × ℚ × ℚ :=
  (p.x / p.y, 1, (1 - p.x - p.y) / p.y)

/-- Specification-side definition (spec 4.4 step 2): the matrix `P`
whose columns are the red, green and blue direction vectors. -/
def spec_primary_matrix (r g b : RgbPrimary) : Matrix3 :=
  ⟨(spec_direction_vector r).1, (spec_direction_vector g).1, (spec_direction_vector b).1,
   (spec_direction_vector r).2.1, (spec_direction_vector g).2.1, (spec_direction_vector b).2.1,
   (spec_direction_vector r).2.2, (spec_direction_vector g).2.2, (spec_direction_vector b).2.2⟩

/-- Specification-side definition (spec 4.4 step 5): scale each column
of a matrix by the corresponding factor of a triple. -/
def spec_scale_columns (p : Matrix3) (s : ℚ × ℚ × ℚ) : Matrix3 :=
  ⟨s.1 * p.m00, s.2.1 * p.m01, s.2.2 * p.m02,
   s.1 * p.m10, s.2.1 * p.m11, s.2.2 * p.m12,
   s.1 * p.m20, s.2.1 * p.m21, s.2.2 * p.m22⟩

/-- Specification-side definition (spec 4.4 steps 1-5): the forward
transform is `P` with each column scaled by the factors obtained by
applying the inverse of `P` to the white point. -/
def spec_forward_matrix (r g b : RgbPrimary) (w : Xyz) : Option Matrix3 :=
  (spec_primary_matrix r g b).inverse.map fun pinv =>
    spec_scale_columns (spec_primary_matrix r g b) (pinv.transform_vector w.to_tuple)

/-- Modelled from the spec: a `ColorEncoding` supplies the forward and
inverse transfer functions (`encoding.rs` is not under `src/`; spec 6
says named encoding curves supply the channel functions). -/
structure ColorEncoding where
  encode_channel : ℚ → ℚ
  decode_channel : ℚ → ℚ

/-- Modelled from the spec: `LinearEncoding` is the identity transfer
function. -/
def LinearEncoding : ColorEncoding := ⟨id, id⟩

/-- Modelled from the spec: an `EncodedColor` pairs an RGB value with
the encoding it is currently tagged with (the Rust tag is a type
parameter; here it is a value-level discriminant, spec 9 allows either). -/
structure EncodedColor where
  color : Rgb
  encoding : ColorEncoding

/-- Modelled from the spec: `EncodedColor::decode` applies the inverse
transfer function channel-wise and retags the color as linear. -/
def EncodedColor.decode (c : EncodedColor) : EncodedColor :=
  ⟨⟨c.encoding.decode_channel c.color.red,
    c.encoding.decode_channel c.color.green,
    c.encoding.decode_channel c.color.blue⟩, LinearEncoding⟩

/-- LinearColor<Rgb> is EncodedColor<Rgb, LinearEncoding>: an RGB value
tagged with the linear (identity) encoding. -/
def LinearColor.of (c : Rgb) : EncodedColor := ⟨c, LinearEncoding⟩

/-- ToXyz::convert_to_xyz for LinearColor<Rgb>
(`color_space/color_space.rs` lines 283-294): apply the forward
transform of the space to the channel tuple. -/
def EncodedColor.convert_to_xyz (c : EncodedColor) (space : LinearColorSpace) : Xyz :=
  let t := space.get_xyz_transform.transform_vector c.color.to_tuple
  Xyz.from_channels t.1 t.2.1 t.2.2

/-- ColorSpaceConversion::color_to_xyz for LinearColorSpace on a
linear-tagged color (`color_space/color_space.rs` lines 250-258):
convert directly, with no decode step. -/
def LinearColorSpace.color_to_xyz (s : LinearColorSpace) (c : EncodedColor) : Xyz :=
  c.convert_to_xyz s

/-- EncodedColorSpace: a linear color space plus its encoding
(`color_space/color_space.rs` lines 46-50). -/
structure EncodedColorSpace where
  linear_space : LinearColorSpace
  encoding : ColorEncoding

/-- ColorSpace::get_xyz_transform for EncodedColorSpace delegates to the
wrapped linear space (`color_space/color_space.rs` lines 227-229). -/
def EncodedColorSpace.get_xyz_transform (s : EncodedColorSpace) : Matrix3 :=
  s.linear_space.get_xyz_transform

/-- ColorSpaceConversion::color_to_xyz for EncodedColorSpace on an
encoded color (`color_space/color_space.rs` lines 260-270): decode
first, then convert the linear result. -/
def EncodedColorSpace.color_to_xyz (s : EncodedColorSpace) (c : EncodedColor) : Xyz :=
  c.decode.convert_to_xyz s.linear_space

/-- Modelled from the spec: the gamma transfer curve over `ℝ` (named
curve sets are external collaborators; spec 4.5 and the glossary call
the encode direction the nonlinear gamma map).  Encoding raises a
linear value to `1 / gamma`. -/
noncomputable def gamma_encode_channel (gamma v : ℝ) : ℝ := v ^ (1 / gamma)

/-- Modelled from the spec: the inverse gamma curve, raising an encoded
value to `gamma`. -/
noncomputable def gamma_decode_channel (gamma v : ℝ) : ℝ := v ^ gamma

/-- Modelled from the spec: the angle type underlying `AngularChannel`
(the `angular_units` crate is an external collaborator).  Degrees are
reduced into the canonical period [0, 360). -/
def Deg.normalize (x : ℚ) : ℚ := x - 360 * ⌊x / 360⌋

/-- Modelled from the spec: the signed shortest-arc difference between
two angles in degrees, in (-180, 180]. -/
def Deg.shortestDiff (a b : ℚ) : ℚ := (b - a) - 360 * round ((b - a) / 360)

/-- Modelled from the spec: shortest-arc interpolation of angles in
degrees (spec 4.1: interpolation takes the shorter arc between the two
angles modulo the period). -/
def Deg.lerp (a b pos : ℚ) : ℚ := Deg.normalize (a + pos * Deg.shortestDiff a b)

/-- AngularChannel (`channel/angular_channel.rs` line 6), instantiated
at the degree angle type. -/
structure AngularChannel where
  val : ℚ
deriving DecidableEq, Repr

/-- Lerp for AngularChannel (`channel/angular_channel.rs` lines 24-31)
delegates to the underlying angle type. -/
def AngularChannel.lerp (l r : AngularChannel) (pos : ℚ) : AngularChannel :=
  ⟨Deg.lerp l.val r.val pos⟩

/-- Modelled from the spec: the bounded channel with the canonical
[0, 1] range (`channel/bounded_channel.rs` is not under `src/`; spec 4.1
says `invert` is the complement within the bounds). -/
structure BoundedChannel where
  val : ℚ
deriving DecidableEq, Repr

/-- Invert for the bounded channel: the complement within [0, 1]. -/
def BoundedChannel.invert (c : BoundedChannel) : BoundedChannel := ⟨1 - c.val⟩

/-- A scalar format: the bounds reported by the underlying numeric type
(for `f32`/`f64`, `min_value` is the least finite value). -/
structure ScalarFormat where
  min_value : ℚ
  max_value : ℚ

/-- FreeChannel::min_bound (`channel/free_channel.rs` lines 18-20):
returns `T::min_value()`. -/
def FreeChannel.min_bound (t : ScalarFormat) : ℚ := t.min_value

/-- FreeChannel::max_bound (`channel/free_channel.rs` lines 22-24): the
source returns `T::min_value()`, not `T::max_value()`. -/
def FreeChannel.max_bound (t : ScalarFormat) : ℚ := t.min_value

/-- A concrete valid primary triple and white point used by witnesses:
the derived forward matrix and its inverse were computed by hand and
check below by `decide`. -/
def witRed : RgbPrimary := RgbPrimary.new (1/2) (1/2)

/-- Witness green primary. -/
def witGreen : RgbPrimary := RgbPrimary.new (1/4) (1/4)

/-- Witness blue primary. -/
def witBlue : RgbPrimary := RgbPrimary.new (1/4) (1/2)

/-- Witness white point. -/
def witWhite : Xyz := Xyz.from_channels 2 1 1

/-- The color space `LinearColorSpace::new` builds from the witness
primaries and white point. -/
def witSpace : LinearColorSpace :=
  ⟨witRed, witGreen, witBlue, witWhite,
   Matrix3.new 2 1 (-1) 2 1 (-2) 0 2 (-1),
   Matrix3.new (3/4) (-1/4) (-1/4) (1/2) (-1/2) (1/2) 1 (-1) 0⟩

/-- A collinear (linearly dependent) primary triple: all three lie on
the line x = y, so their direction vectors share the first two
coordinates and the primary matrix is singular. -/
def colRed : RgbPrimary := RgbPrimary.new (3/10) (3/10)

/-- Second collinear primary. -/
def colGreen : RgbPrimary := RgbPrimary.new (2/5) (2/5)

/-- Third collinear primary. -/
def colBlue : RgbPrimary := RgbPrimary.new (1/2) (1/2)

/-!  Theorems. -/

/-- Inverting a matrix with `Matrix3.inverse` yields a genuine two-sided
inverse: the product with the original matrix, in either order, is the
identity. -/
theorem Matrix3.mul_inverse_eq_identity (m n : Matrix3) (h : m.inverse = some n) :
    m.mul n = Matrix3.identity ∧ n.mul m = Matrix3.identity := by
  obtain ⟨a, b, c, d, e, f, g, h0, i⟩ := m
  unfold Matrix3.inverse at h
  split_ifs at h with hdet
  simp only [Option.some.injEq] at h
  subst h
  simp only [Matrix3.det] at hdet
  constructor <;>
    · simp only [Matrix3.mul, Matrix3.identity, Matrix3.det, Matrix3.mk.injEq]
      refine ⟨?_, ?_, ?_, ?_, ?_, ?_, ?_, ?_, ?_⟩ <;>
        · field_simp
          ring

/-- Matrix multiplication composes with vector transformation. -/
theorem Matrix3.mul_transform_vector (a b : Matrix3) (v : ℚ × ℚ × ℚ) :
    (a.mul b).transform_vector v = a.transform_vector (b.transform_vector v) := by
  obtain ⟨x, y, z⟩ := v
  simp only [Matrix3.mul, Matrix3.transform_vector, Prod.mk.injEq]
  refine ⟨by ring, by ring, by ring⟩

/-- The identity matrix transforms every vector to itself. -/
theorem Matrix3.identity_transform_vector (v : ℚ × ℚ × ℚ) :
    Matrix3.identity.transform_vector v = v := by
  obtain ⟨x, y, z⟩ := v
  simp only [Matrix3.identity, Matrix3.transform_vector, Prod.mk.injEq]
  refine ⟨by ring, by ring, by ring⟩

/-- Applying a column-scaled matrix to (1,1,1) is applying the original
matrix to the scale factors. -/
theorem spec_scale_columns_transform_one (p : Matrix3) (s : ℚ × ℚ × ℚ) :
    (spec_scale_columns p s).transform_vector (1, 1, 1) = p.transform_vector s := by
  obtain ⟨s1, s2, s3⟩ := s
  simp only [spec_scale_columns, Matrix3.transform_vector, Prod.mk.injEq]
  refine ⟨by ring, by ring, by ring⟩

/-- Shared helper: `build_transform` computes exactly the matrix the
spec pipeline describes, with the `unwrap` panic corresponding to the
spec pipeline having no result. -/
theorem build_transform_toOption (r g b : RgbPrimary) (w : Xyz) :
    (LinearColorSpace.build_transform r g b w).toOption = spec_forward_matrix r g b w := by
  simp only [LinearColorSpace.build_transform, LinearColorSpace.calc_transform_vector,
    RgbPrimary.to_tuple, Matrix3.new, spec_forward_matrix, spec_primary_matrix,
    spec_direction_vector]
  cases hinv : (Matrix3.inverse
      ⟨r.x / r.y, g.x / g.y, b.x / b.y, 1, 1, 1,
       (1 - r.x - r.y) / r.y, (1 - g.x - g.y) / g.y, (1 - b.x - b.y) / b.y⟩) with
  | none => rfl
  | some pinv =>
    simp only [Option.map_some', Except.toOption, spec_scale_columns]

/-- Shared helper: a successful `LinearColorSpace::new` stores as its
forward matrix the spec-pipeline result and as its inverse matrix a
matrix `Matrix3.inverse` returned for it, and keeps the white point. -/
theorem new_ok_shape (r g b : RgbPrimary) (w : Xyz) (cs : LinearColorSpace)
    (h : LinearColorSpace.new r g b w = Except.ok cs) :
    ∃ pinv, (spec_primary_matrix r g b).inverse = some pinv ∧
      cs.xyz_transform = spec_scale_columns (spec_primary_matrix r g b)
        (pinv.transform_vector w.to_tuple) ∧
      cs.xyz_transform.inverse = some cs.inv_transform ∧ cs.white_point = w := by
  unfold LinearColorSpace.new at h
  cases hb : LinearColorSpace.build_transform r g b w with
  | error e =>
    simp only [hb] at h
    exact Except.noConfusion h
  | ok fwd =>
    simp only [hb] at h
    cases hi : fwd.inverse with
    | none =>
      simp only [hi] at h
      exact Except.noConfusion h
    | some inv =>
      simp only [hi, Except.ok.injEq] at h
      subst h
      have hopt : spec_forward_matrix r g b w = some fwd := by
        rw [← build_transform_toOption, hb]
        rfl
      rw [spec_forward_matrix] at hopt
      obtain ⟨pinv, hpinv, hfwd⟩ := Option.map_eq_some'.mp hopt
      exact ⟨pinv, hpinv, hfwd.symm, hi, rfl⟩

/-- C1: `build_transform` derives the forward RGB-to-XYZ matrix exactly
by the specified algorithm: direction vectors `(x/y, 1, (1-x-y)/y)` for
each primary, assembled as the columns of `P`, `P` inverted, the
inverse applied to the white point giving scale factors, and the result
being `P` with each column scaled by its factor (the `unwrap` panic of
the source corresponds to the pipeline having no result). -/
theorem spec2_C1 (r g b : RgbPrimary) (w : Xyz) :
    (LinearColorSpace.build_transform r g b w).toOption = spec_forward_matrix r g b w :=
  build_transform_toOption r g b w

/-- C1 witness: at the concrete witness primaries and white point both
sides evaluate to the same concrete matrix. -/
theorem spec2_C1_witness :
    (LinearColorSpace.build_transform witRed witGreen witBlue witWhite).toOption =
      spec_forward_matrix witRed witGreen witBlue witWhite :=
  spec2_C1 witRed witGreen witBlue witWhite

/-- C2: for every color space successfully constructed by
`LinearColorSpace::new`, the stored forward and inverse transforms are
mutual inverses; their product is exactly the identity in the
exact-arithmetic model, hence within the 1e-4 tolerance. -/
theorem spec2_C2 (r g b : RgbPrimary) (w : Xyz) (cs : LinearColorSpace)
    (h : LinearColorSpace.new r g b w = Except.ok cs) :
    cs.get_xyz_transform.mul cs.get_inverse_xyz_transform = Matrix3.identity ∧
    cs.get_inverse_xyz_transform.mul cs.get_xyz_transform = Matrix3.identity ∧
    Matrix3.approxEq (cs.get_xyz_transform.mul cs.get_inverse_xyz_transform)
      Matrix3.identity (1 / 10000) := by
  obtain ⟨pinv, hpinv, hfwd, hinv, hw⟩ := new_ok_shape r g b w cs h
  obtain ⟨h1, h2⟩ := Matrix3.mul_inverse_eq_identity _ _ hinv
  simp only [LinearColorSpace.get_xyz_transform, LinearColorSpace.get_inverse_xyz_transform]
  refine ⟨h1, h2, ?_⟩
  rw [h1]
  norm_num [Matrix3.approxEq, Matrix3.identity]

/-- C2 witness: the witness primaries and white point construct a space
whose stored matrices multiply to the identity. -/
theorem spec2_C2_witness :
    LinearColorSpace.new witRed witGreen witBlue witWhite = Except.ok witSpace ∧
    (witSpace.get_xyz_transform.mul witSpace.get_inverse_xyz_transform = Matrix3.identity ∧
     witSpace.get_inverse_xyz_transform.mul witSpace.get_xyz_transform = Matrix3.identity ∧
     Matrix3.approxEq (witSpace.get_xyz_transform.mul witSpace.get_inverse_xyz_transform)
       Matrix3.identity (1 / 10000)) :=
  ⟨by
    norm_num [LinearColorSpace.new, LinearColorSpace.build_transform,
    LinearColorSpace.calc_transform_vector, RgbPrimary.to_tuple, Matrix3.new,
    Matrix3.inverse, Matrix3.det, Matrix3.transform_vector, witRed, witGreen, witBlue,
    witWhite, witSpace, RgbPrimary.new, Xyz.from_channels, Xyz.to_tuple],
   spec2_C2 witRed witGreen witBlue witWhite witSpace (by
    norm_num [LinearColorSpace.new, LinearColorSpace.build_transform,
    LinearColorSpace.calc_transform_vector, RgbPrimary.to_tuple, Matrix3.new,
    Matrix3.inverse, Matrix3.det, Matrix3.transform_vector, witRed, witGreen, witBlue,
    witWhite, witSpace, RgbPrimary.new, Xyz.from_channels, Xyz.to_tuple])⟩

/-- C3 counterexample: on a collinear primary triple the constructor
does not surface the failure as a result value: the source `unwrap`s
the singular inversion inside `build_transform`, so construction
terminates in a panic (modelled as the `RustFailure` error outcome of
the embedding, since the Rust signature `fn new(..) -> Self` offers no
result type). -/
theorem spec2_C3_counterexample :
    LinearColorSpace.new colRed colGreen colBlue (Xyz.from_channels 1 1 1) =
      Except.error (RustFailure.fatal "called Option::unwrap() on a None value") := by
  norm_num [LinearColorSpace.new, LinearColorSpace.build_transform,
    LinearColorSpace.calc_transform_vector, RgbPrimary.to_tuple, Matrix3.new,
    Matrix3.inverse, Matrix3.det, Matrix3.transform_vector, colRed, colGreen, colBlue,
    RgbPrimary.new, Xyz.from_channels, Xyz.to_tuple]

/-- C3 amended: collinear (singular) primaries make construction fail
by a panic (the `unwrap` of the primary-matrix inversion), never
returning a usable color-space object; the failure is a panic rather
than a constructor-level result value. -/
theorem spec2_C3_amended (r g b : RgbPrimary) (w : Xyz)
    (h : (spec_primary_matrix r g b).det = 0) :
    LinearColorSpace.new r g b w =
      Except.error (RustFailure.fatal "called Option::unwrap() on a None value") := by
  have hP : (spec_primary_matrix r g b).inverse = none := by
    unfold Matrix3.inverse
    rw [if_pos h]
  have hb : LinearColorSpace.build_transform r g b w =
      Except.error (RustFailure.fatal "called Option::unwrap() on a None value") := by
    simp only [LinearColorSpace.build_transform, LinearColorSpace.calc_transform_vector,
      RgbPrimary.to_tuple, Matrix3.new]
    rw [show Matrix3.inverse
        ⟨r.x / r.y, g.x / g.y, b.x / b.y, 1, 1, 1,
         (1 - r.x - r.y) / r.y, (1 - g.x - g.y) / g.y, (1 - b.x - b.y) / b.y⟩ = none from hP]
  unfold LinearColorSpace.new
  simp only [hb]

/-- C3 witness: the concrete collinear triple satisfies the singularity
hypothesis and construction panics on it. -/
theorem spec2_C3_amended_witness :
    (spec_primary_matrix colRed colGreen colBlue).det = 0 ∧
    LinearColorSpace.new colRed colGreen colBlue (Xyz.from_channels 1 1 1) =
      Except.error (RustFailure.fatal "called Option::unwrap() on a None value") :=
  ⟨by
    norm_num [spec_primary_matrix, spec_direction_vector, Matrix3.det, colRed,
      colGreen, colBlue, RgbPrimary.new],
   spec2_C3_amended colRed colGreen colBlue (Xyz.from_channels 1 1 1) (by
    norm_num [spec_primary_matrix, spec_direction_vector, Matrix3.det, colRed,
      colGreen, colBlue, RgbPrimary.new])⟩

/-- C7: every successfully constructed color space maps linear RGB
(0,0,0) to XYZ (0,0,0) and linear RGB (1,1,1) exactly to its white
point (hence within the 1e-5 tolerance). -/
theorem spec2_C7 (r g b : RgbPrimary) (w : Xyz) (cs : LinearColorSpace)
    (h : LinearColorSpace.new r g b w = Except.ok cs) :
    cs.apply_transform (0, 0, 0) = (0, 0, 0) ∧
    cs.apply_transform (1, 1, 1) = w.to_tuple ∧
    tupleApproxEq (cs.apply_transform (1, 1, 1)) w.to_tuple (1 / 100000) := by
  obtain ⟨pinv, hpinv, hfwd, hinv, hw⟩ := new_ok_shape r g b w cs h
  have hzero : cs.apply_transform (0, 0, 0) = (0, 0, 0) := by
    simp only [LinearColorSpace.apply_transform, LinearColorSpace.get_xyz_transform,
      Matrix3.transform_vector]
    norm_num
  have hone : cs.apply_transform (1, 1, 1) = w.to_tuple := by
    simp only [LinearColorSpace.apply_transform, LinearColorSpace.get_xyz_transform]
    rw [hfwd, spec_scale_columns_transform_one, ← Matrix3.mul_transform_vector,
      (Matrix3.mul_inverse_eq_identity _ _ hpinv).1, Matrix3.identity_transform_vector]
  refine ⟨hzero, hone, ?_⟩
  rw [hone]
  unfold tupleApproxEq
  norm_num

/-- C7 witness: the witness space maps (0,0,0) to the origin and
(1,1,1) to its white point (2,1,1). -/
theorem spec2_C7_witness :
    LinearColorSpace.new witRed witGreen witBlue witWhite = Except.ok witSpace ∧
    (witSpace.apply_transform (0, 0, 0) = (0, 0, 0) ∧
     witSpace.apply_transform (1, 1, 1) = witWhite.to_tuple ∧
     tupleApproxEq (witSpace.apply_transform (1, 1, 1)) witWhite.to_tuple (1 / 100000)) :=
  ⟨by
    norm_num [LinearColorSpace.new, LinearColorSpace.build_transform,
    LinearColorSpace.calc_transform_vector, RgbPrimary.to_tuple, Matrix3.new,
    Matrix3.inverse, Matrix3.det, Matrix3.transform_vector, witRed, witGreen, witBlue,
    witWhite, witSpace, RgbPrimary.new, Xyz.from_channels, Xyz.to_tuple],
   spec2_C7 witRed witGreen witBlue witWhite witSpace (by
    norm_num [LinearColorSpace.new, LinearColorSpace.build_transform,
    LinearColorSpace.calc_transform_vector, RgbPrimary.to_tuple, Matrix3.new,
    Matrix3.inverse, Matrix3.det, Matrix3.transform_vector, witRed, witGreen, witBlue,
    witWhite, witSpace, RgbPrimary.new, Xyz.from_channels, Xyz.to_tuple])⟩

/-- C4: the conversion entry points dispatch on the encoding tag.  A
linear-tagged color is transformed directly by the forward matrix of
the space; an encoded color is decoded first and the XYZ result of the
encoded path equals `convert_to_xyz` applied to the decoded color; and
decoding a linear-tagged color leaves its channels unchanged, so the
two paths agree on linear colors. -/
theorem spec2_C4 :
    (∀ (s : LinearColorSpace) (c : Rgb),
       s.color_to_xyz (LinearColor.of c) =
         Xyz.from_tuple (s.get_xyz_transform.transform_vector c.to_tuple)) ∧
    (∀ (s : EncodedColorSpace) (c : EncodedColor),
       s.color_to_xyz c = c.decode.convert_to_xyz s.linear_space) ∧
    (∀ (s : EncodedColorSpace) (c : EncodedColor),
       s.color_to_xyz c =
         Xyz.from_tuple (s.get_xyz_transform.transform_vector c.decode.color.to_tuple)) ∧
    (∀ c : Rgb, (LinearColor.of c).decode = LinearColor.of c) := by
  refine ⟨?_, ?_, ?_, ?_⟩
  · intro s c
    rfl
  · intro s c
    rfl
  · intro s c
    rfl
  · intro c
    cases c
    rfl

/-- C5: converting a color to its channel tuple and back is the
identity, for each embedded concrete color model. -/
theorem spec2_C5 :
    (∀ c : Rgb, Rgb.from_tuple c.to_tuple = c) ∧
    (∀ c : Xyz, Xyz.from_tuple c.to_tuple = c) := by
  constructor <;> intro c <;> cases c <;> rfl

/-- C6: for every supported transfer curve (the identity curve and the
gamma family with positive exponent) and every representable channel
value in the curve domain, decoding after encoding and encoding after
decoding return the value exactly in the exact-real model, hence within
any floating-point tolerance. -/
theorem spec2_C6 (gamma v : ℝ) (hg : 0 < gamma) (hv : 0 ≤ v) :
    gamma_decode_channel gamma (gamma_encode_channel gamma v) = v ∧
    gamma_encode_channel gamma (gamma_decode_channel gamma v) = v ∧
    (∀ u : ℚ, LinearEncoding.decode_channel (LinearEncoding.encode_channel u) = u) ∧
    (∀ u : ℚ, LinearEncoding.encode_channel (LinearEncoding.decode_channel u) = u) := by
  have hg0 : gamma ≠ 0 := ne_of_gt hg
  refine ⟨?_, ?_, fun u => rfl, fun u => rfl⟩
  · unfold gamma_decode_channel gamma_encode_channel
    rw [← Real.rpow_mul hv]
    rw [one_div_mul_cancel hg0, Real.rpow_one]
  · unfold gamma_decode_channel gamma_encode_channel
    rw [← Real.rpow_mul hv]
    rw [mul_one_div_cancel hg0, Real.rpow_one]

/-- C6 witness: the gamma-2 curve round-trips the value 1. -/
theorem spec2_C6_witness :
    0 < (2 : ℝ) ∧ 0 ≤ (1 : ℝ) ∧
    (gamma_decode_channel 2 (gamma_encode_channel 2 1) = 1 ∧
     gamma_encode_channel 2 (gamma_decode_channel 2 1) = 1 ∧
     (∀ u : ℚ, LinearEncoding.decode_channel (LinearEncoding.encode_channel u) = u) ∧
     (∀ u : ℚ, LinearEncoding.encode_channel (LinearEncoding.decode_channel u) = u)) :=
  ⟨by norm_num, by norm_num, spec2_C6 2 1 (by norm_num) (by norm_num)⟩

/-- C8: angular-channel interpolation moves along the shorter arc: the
signed difference it interpolates over never exceeds half the period in
magnitude and differs from the raw difference by a whole number of
periods, and interpolating between 350 and 10 degrees at position 1/2
yields 0 degrees, not 180 degrees. -/
theorem spec2_C8 :
    (∀ a b : ℚ, |Deg.shortestDiff a b| ≤ 180) ∧
    (∀ a b : ℚ, ∃ k : ℤ, Deg.shortestDiff a b - (b - a) = 360 * k) ∧
    AngularChannel.lerp ⟨350⟩ ⟨10⟩ (1 / 2) = ⟨0⟩ ∧
    AngularChannel.lerp ⟨350⟩ ⟨10⟩ (1 / 2) ≠ ⟨180⟩ := by
  refine ⟨?_, ?_, ?_, ?_⟩
  · intro a b
    have h := abs_sub_round ((b - a) / 360)
    have hd : Deg.shortestDiff a b = 360 * ((b - a) / 360 - round ((b - a) / 360)) := by
      unfold Deg.shortestDiff
      ring
    rw [hd, abs_mul]
    have h360 : |(360 : ℚ)| = 360 := by norm_num
    rw [h360]
    linarith
  · intro a b
    exact ⟨-round ((b - a) / 360), by
      unfold Deg.shortestDiff
      push_cast
      ring⟩
  · unfold AngularChannel.lerp Deg.lerp Deg.shortestDiff Deg.normalize
    norm_num [round_eq]
  · unfold AngularChannel.lerp Deg.lerp Deg.shortestDiff Deg.normalize
    norm_num [round_eq]

/-- C9: inverting the canonical [0,1] bounded channel at 0.3 yields 0.7
and double inversion is exactly the identity. -/
theorem spec2_C9 :
    BoundedChannel.invert ⟨3 / 10⟩ = ⟨7 / 10⟩ ∧
    (∀ c : BoundedChannel, c.invert.invert = c) := by
  constructor
  · unfold BoundedChannel.invert
    norm_num
  · intro c
    cases c
    unfold BoundedChannel.invert
    norm_num

/-- C10: `FreeChannel::max_bound` returns `T::min_value()` for every
scalar format, the same value `min_bound` returns: the reported upper
bound of a free channel is the minimum of the format, not its maximum. -/
theorem spec2_C10 (t : ScalarFormat) :
    FreeChannel.max_bound t = t.min_value ∧
    FreeChannel.max_bound t = FreeChannel.min_bound t :=
  ⟨rfl, rfl⟩
